import Mathlib

/-!
Verification of the sqla-authz authorization filter compiler and enforcement
engine, as a shallow embedding of `src/sqla_authz`.

The embedding covers: the Python value domain manipulated by the in-memory
predicate evaluator (`compiler/_eval.py`), the predicate-expression tree
(SQLAlchemy `ColumnElement` shapes the evaluator walks), materialized model
instances with loaded/unloaded relationship state, the layered configuration
(`config/_config.py`), the policy registry (`policy/_registry.py`), the
predicate compiler (`compiler/_expression.py`), the SQL-side three-valued
row semantics used by `authorize_query` (`compiler/_query.py`) and by the
temporary-SQLite point check `can` (`_checks.py`), the session interceptor's
missing-policy and write-authorization paths (`session/_interceptor.py`),
and the relationship-path compiler (`compiler/_relationship.py`).
-/

namespace SqlaAuthz

/-! ## Python value domain

Values that flow through the evaluator: column values of an instance, bound
parameters from the actor, and literals.  `none` is Python `None` / SQL NULL.
-/

inductive Value where
  | none : Value
  | bool : Bool → Value
  | int  : Int → Value
  | str  : String → Value
deriving DecidableEq, Repr

/-- Type class of a value for mismatch reasoning: Python `bool` participates in
the numeric tower, so `bool` and `int` share a class. -/
inductive TyClass where
  | noneTy | numTy | strTy
deriving DecidableEq, Repr

def Value.tyClass : Value → TyClass
  | .none => .noneTy
  | .bool _ => .numTy
  | .int _ => .numTy
  | .str _ => .strTy

/-- Numeric view: Python treats `True`/`False` as `1`/`0` in comparisons. -/
def Value.asNum? : Value → Option Int
  | .bool b => some (if b then 1 else 0)
  | .int n => some n
  | _ => Option.none

/-- Python `==` on the modeled value domain (total, never raises):
`None == None` is true, numbers (including booleans) compare numerically,
strings compare as strings, and any cross-class comparison is `False`. -/
def pyEq : Value → Value → Bool
  | .none, .none => true
  | .str s, .str t => s == t
  | v, w =>
    match v.asNum?, w.asNum? with
    | some m, some n => m == n
    | _, _ => false

/-- Python `<` on the modeled value domain.  Defined for number/number and
string/string pairs; every other pair raises `TypeError`, modeled as
`Except.error`. -/
def pyLt : Value → Value → Except Unit Bool
  | .str s, .str t => .ok (s < t)
  | v, w =>
    match v.asNum?, w.asNum? with
    | some m, some n => .ok (m < n)
    | _, _ => .error ()

/-- Python `<=`; same domain of definition as `pyLt`. -/
def pyLe : Value → Value → Except Unit Bool
  | .str s, .str t => .ok (s ≤ t)
  | v, w =>
    match v.asNum?, w.asNum? with
    | some m, some n => .ok (m ≤ n)
    | _, _ => .error ()

/-- Python `is` on the modeled immutable scalar domain.  `None` and the two
booleans are singletons, so identity coincides with equality there; for the
remaining pairs (where CPython interning makes identity unspecified) the
model answers `false`, matching the SQL `IS` use cases the compiler emits. -/
def pyIs : Value → Value → Bool
  | .none, .none => true
  | .bool a, .bool b => a == b
  | _, _ => false

/-! ## SQL LIKE pattern matching (`_sql_like_match` in `compiler/_eval.py`)

The source converts `%` to `.*` and `_` to `.` and does a full-string regex
match; the recursive glob matcher below implements exactly that semantics.
-/

def likeChars : List Char → List Char → Bool
  | [], [] => true
  | '%' :: ps, [] => likeChars ps []
  | _ :: _, [] => false
  | [], _ :: _ => false
  | '%' :: ps, c :: s => likeChars ps (c :: s) || likeChars ('%' :: ps) s
  | '_' :: ps, _ :: s => likeChars ps s
  | p :: ps, c :: s => p == c && likeChars ps s
termination_by ps s => ps.length + s.length

/-- Embeds `_sql_like_match(value, pattern, case_sensitive)`: non-strings never
match; case-insensitive matching lowercases both sides (re.IGNORECASE). -/
def sqlLikeMatch (value pattern : Value) (caseSensitive : Bool) : Bool :=
  match value, pattern with
  | .str v, .str p =>
    if caseSensitive then likeChars p.toList v.toList
    else likeChars (p.toList.map Char.toLower) (v.toList.map Char.toLower)
  | _, _ => false

/-- Leading-match check on char lists: the first argument occurs at the start
of the second. -/
def charsLead : List Char → List Char → Bool
  | [], _ => true
  | _ :: _, [] => false
  | c :: cs, h :: hs => c == h && charsLead cs hs

/-- Substring containment on char lists (Python `right in left` for strings). -/
def charsContain (hay needle : List Char) : Bool :=
  match hay with
  | [] => needle.isEmpty
  | _ :: rest => charsLead needle hay || charsContain rest needle

/-- Trailing-match check: the first argument occurs at the end of the second. -/
def charsTrail (needle hay : List Char) : Bool :=
  charsLead needle.reverse hay.reverse

/-! ## Predicate expressions

The boolean filter tree the policies produce and the evaluator in
`compiler/_eval.py` walks: comparisons, IN, LIKE variants, BETWEEN, string
containment, boolean clause lists, negation, and EXISTS nodes produced by
relationship `.has()` / `.any()`.  An EXISTS node is recorded here by the
relationship name it resolves to together with the stripped user filter
(`inner = none` when the subquery carried only join scaffolding), which is
the normal form `_eval_exists` reduces the SQLAlchemy `Exists` object to.
`viaAny` records whether the node was built with `.any()` (plural) rather
than `.has()` (singular); the evaluator itself keys off the relationship's
actual cardinality, exactly as `_eval_exists` keys off `prop.uselist`.
-/

inductive CmpOp where
  | eq | ne | lt | le | gt | ge | isOp | isNotOp
deriving DecidableEq, Repr

/-- A leaf operand: an entity attribute reference or a bound value. -/
inductive Operand where
  | col (key : String)
  | bind (v : Value)
deriving DecidableEq, Repr

inductive Expr where
  | true_ : Expr
  | false_ : Expr
  | and_ : List Expr → Expr
  | or_ : List Expr → Expr
  | not_ : Expr → Expr
  | cmp : CmpOp → Operand → Operand → Expr
  | inList : Bool → Operand → List Operand → Expr
  | like : Bool → Bool → Operand → Operand → Expr
  | between : Operand → List Operand → Expr
  | containsStr : Operand → Operand → Expr
  | startsWithStr : Operand → Operand → Expr
  | endsWithStr : Operand → Operand → Expr
  | exists_ : String → Bool → Option Expr → Expr

/-! ## Materialized instances

A mapped instance as the point-check evaluator sees it: a class name, the
loaded column attributes, and per-relationship loaded state (`unloaded`
models `ATTR_EMPTY`/`NO_VALUE`; `one` is a to-one relationship, `many` a
loaded to-many collection).
-/

mutual
inductive Inst where
  | mk (className : String) (attrs : List (String × Value))
       (rels : List (String × RelState))
inductive RelState where
  | unloaded : RelState
  | one : Option Inst → RelState
  | many : List Inst → RelState
end

def Inst.className : Inst → String
  | .mk c _ _ => c

def Inst.attrs : Inst → List (String × Value)
  | .mk _ a _ => a

def Inst.rels : Inst → List (String × RelState)
  | .mk _ _ r => r

/-- Reads `getattr(instance, key, None)` for column attributes. -/
def Inst.getAttr (i : Inst) (key : String) : Value :=
  ((i.attrs.find? (fun kv => kv.1 == key)).map (fun kv => kv.2)).getD .none

/-- Resolve the relationship an EXISTS refers to.  The source matches the
inner select's target table against `mapper.relationships` and skips entries
with no attribute state; name lookup is the corresponding operation on the
modeled instance. -/
def Inst.findRel (i : Inst) (r : String) : Option RelState :=
  (i.rels.find? (fun kv => kv.1 == r)).map (fun kv => kv.2)

/-! ## Configuration (`config/_config.py`) -/

inductive OnMissingPolicy where
  | deny | raise
deriving DecidableEq, Repr

inductive OnUnloadedRelationship where
  | deny | raise | warn
deriving DecidableEq, Repr

inductive OnBypassAction where
  | ignore | warn | raise
deriving DecidableEq, Repr

inductive OnSkipAuthz where
  | ignore | warn | log
deriving DecidableEq, Repr

inductive OnWriteDenied where
  | raise | filter
deriving DecidableEq, Repr

/-- The raw field values of `AuthzConfig`, with the dataclass defaults.  The
string-validity checks of `__post_init__` are unrepresentable here because
each field is already typed by its enumeration; the strict-mode rewriting of
`__post_init__` is `AuthzConfig.postInit` below. -/
structure AuthzConfig where
  on_missing_policy : OnMissingPolicy := .deny
  default_action : String := "read"
  log_policy_decisions : Bool := false
  on_unloaded_relationship : OnUnloadedRelationship := .deny
  strict_mode : Bool := false
  on_unprotected_get : OnBypassAction := .ignore
  on_text_query : OnBypassAction := .ignore
  on_skip_authz : OnSkipAuthz := .ignore
  audit_bypasses : Bool := false
  intercept_updates : Bool := false
  intercept_deletes : Bool := false
  on_write_denied : OnWriteDenied := .raise
deriving DecidableEq, Repr

/-- The strict-mode block of `AuthzConfig.__post_init__` (lines 90-105):
when `strict_mode` is set, any field still holding its falsy default —
`"ignore"` for the three bypass behaviors, `False` for `audit_bypasses` —
is rewritten to the strict value.  A frozen dataclass cannot tell an
explicitly passed default apart from an omitted field, so the rewrite fires
for both. -/
def AuthzConfig.postInit (c : AuthzConfig) : AuthzConfig :=
  if c.strict_mode then
    { c with
      on_unprotected_get :=
        if c.on_unprotected_get = .ignore then .warn else c.on_unprotected_get
      on_text_query :=
        if c.on_text_query = .ignore then .warn else c.on_text_query
      on_skip_authz :=
        if c.on_skip_authz = .ignore then .log else c.on_skip_authz
      audit_bypasses := true }
  else c

/-- Constructing an `AuthzConfig` runs `__post_init__` on the field values. -/
def mkAuthzConfig (c : AuthzConfig) : AuthzConfig := c.postInit

/-! ## In-memory evaluator (`compiler/_eval.py`) -/

inductive EvalError where
  | unloadedRelationship (model rel : String)
  | unsupported (msg : String)
  | typeError
deriving DecidableEq, Repr

/-- Embeds `_handle_unloaded_relationship`: apply the configured policy when an
EXISTS hits a relationship with no loaded state. -/
def handleUnloadedRelationship (cfg : AuthzConfig) (modelName relName : String) :
    Except EvalError Bool :=
  match cfg.on_unloaded_relationship with
  | .raise => .error (.unloadedRelationship modelName relName)
  | .warn => .ok false
  | .deny => .ok false

/-- Embeds `_resolve_value`: a column reference reads the instance attribute (with
`None` default), a bind parameter yields its value. -/
def resolveValue (o : Operand) (i : Inst) : Value :=
  match o with
  | .col key => i.getAttr key
  | .bind v => v

/-- The ordinary-comparison branch of `_eval_binary` (lines 242-251):
`bool(py_op(l, r))` with `TypeError` caught and turned into `False`. -/
def applyCmp (op : CmpOp) (l r : Value) : Bool :=
  match op with
  | .eq => pyEq l r
  | .ne => !pyEq l r
  | .isOp => pyIs l r
  | .isNotOp => !pyIs l r
  | .lt => match pyLt l r with | .ok b => b | .error _ => false
  | .le => match pyLe l r with | .ok b => b | .error _ => false
  | .gt => match pyLt r l with | .ok b => b | .error _ => false
  | .ge => match pyLe r l with | .ok b => b | .error _ => false

/-- The BETWEEN branch of `_eval_binary` (lines 207-220): exactly two bounds
are required (anything else yields `False`); the inclusive range check is
Python's chained `bounds[0] <= val <= bounds[1]`, which short-circuits after
a false first comparison and has no `TypeError` handler, so an incomparable
pair propagates a type error. -/
def applyBetween (val : Value) (bounds : List Value) : Except EvalError Bool :=
  match bounds with
  | [b0, b1] =>
    match pyLe b0 val with
    | .error _ => .error .typeError
    | .ok false => .ok false
    | .ok true =>
      match pyLe val b1 with
      | .error _ => .error .typeError
      | .ok b => .ok b
  | _ => .ok false

/-- Python `in` on a resolved value list (membership by `==`). -/
def pyMem (v : Value) (vs : List Value) : Bool :=
  vs.any (fun w => pyEq v w)

/-- The `contains_op` branch: both operands must be strings and the right is
a substring of the left. -/
def applyContains (l r : Value) : Bool :=
  match l, r with
  | .str a, .str b => charsContain a.toList b.toList
  | _, _ => false

def applyStarts (l r : Value) : Bool :=
  match l, r with
  | .str a, .str b => charsLead b.toList a.toList
  | _, _ => false

def applyEnds (l r : Value) : Bool :=
  match l, r with
  | .str a, .str b => charsTrail b.toList a.toList
  | _, _ => false

mutual
/-- Embeds `_eval` / `_eval_binary` / `_eval_exists`: recursively evaluate the
filter tree against one instance.  AND/OR short-circuit like Python's
`all()` / `any()`; EXISTS dispatches on the resolved relationship state. -/
def evalE (cfg : AuthzConfig) (e : Expr) (i : Inst) : Except EvalError Bool :=
  match e with
  | .true_ => .ok true
  | .false_ => .ok false
  | .and_ cs => evalConj cfg cs i
  | .or_ cs => evalDisj cfg cs i
  | .not_ b => do
    let r ← evalE cfg b i
    .ok (!r)
  | .cmp op l r => .ok (applyCmp op (resolveValue l i) (resolveValue r i))
  | .inList negated l rs =>
    let m := pyMem (resolveValue l i) (rs.map (fun o => resolveValue o i))
    .ok (if negated then !m else m)
  | .like negated caseInsensitive l r =>
    let m := sqlLikeMatch (resolveValue l i) (resolveValue r i) (!caseInsensitive)
    .ok (if negated then !m else m)
  | .between l bounds =>
    applyBetween (resolveValue l i) (bounds.map (fun o => resolveValue o i))
  | .containsStr l r => .ok (applyContains (resolveValue l i) (resolveValue r i))
  | .startsWithStr l r => .ok (applyStarts (resolveValue l i) (resolveValue r i))
  | .endsWithStr l r => .ok (applyEnds (resolveValue l i) (resolveValue r i))
  | .exists_ rel _ inner =>
    match i.findRel rel with
    | .none =>
      .error (.unsupported ("Could not resolve EXISTS to a relationship on "
        ++ i.className))
    | some .unloaded => handleUnloadedRelationship cfg i.className rel
    | some (.one .none) => .ok false
    | some (.one (some related)) => evalInner cfg inner related
    | some (.many objs) => evalExistsAny cfg inner objs
termination_by (sizeOf e, 0)

/-- Python `all(_eval(clause, instance) for clause in expr.clauses)`. -/
def evalConj (cfg : AuthzConfig) (cs : List Expr) (i : Inst) :
    Except EvalError Bool :=
  match cs with
  | [] => .ok true
  | c :: rest => do
    let b ← evalE cfg c i
    if b then evalConj cfg rest i else .ok false
termination_by (sizeOf cs, 0)

/-- Python `any(_eval(clause, instance) for clause in expr.clauses)`. -/
def evalDisj (cfg : AuthzConfig) (cs : List Expr) (i : Inst) :
    Except EvalError Bool :=
  match cs with
  | [] => .ok false
  | c :: rest => do
    let b ← evalE cfg c i
    if b then .ok true else evalDisj cfg rest i
termination_by (sizeOf cs, 0)

/-- Embeds `user_filter is None or _eval(user_filter, related)`. -/
def evalInner (cfg : AuthzConfig) (inner : Option Expr) (related : Inst) :
    Except EvalError Bool :=
  match inner with
  | .none => .ok true
  | some e => evalE cfg e related
termination_by (sizeOf inner, 0)

/-- The `.any()` loop of `_eval_exists`: an empty collection is a non-match;
otherwise return true at the first related object the inner filter accepts. -/
def evalExistsAny (cfg : AuthzConfig) (inner : Option Expr) (objs : List Inst) :
    Except EvalError Bool :=
  match objs with
  | [] => .ok false
  | o :: rest => do
    let b ← evalInner cfg inner o
    if b then .ok true else evalExistsAny cfg inner rest
termination_by (sizeOf inner, 1 + sizeOf objs)
end

/-- Embeds `eval_expression(expr, instance)`: the public entry point of the
in-memory evaluator, reading the unloaded-relationship mode from the
configuration current at call time. -/
def eval_expression (cfg : AuthzConfig) (expr : Expr) (inst : Inst) :
    Except EvalError Bool :=
  evalE cfg expr inst


/-! ## SQL-side row semantics

`authorize_query` returns a filtered SELECT that the storage engine runs, and
`can` routes its compiled filter through a temporary in-memory SQLite
database.  Rows are filtered under SQL three-valued logic: a row is returned
exactly when the WHERE expression evaluates to true (not false, not NULL).
The relationship environment `env` supplies, per relationship name and
current row, the joined rows of the related table, giving EXISTS subqueries
their relational meaning.
-/

inductive TV where
  | t | f | u
deriving DecidableEq, Repr

def TV.ofBool (b : Bool) : TV := if b then .t else .f

def TV.not3 : TV → TV
  | .t => .f
  | .f => .t
  | .u => .u

def TV.and3 : TV → TV → TV
  | .f, _ => .f
  | _, .f => .f
  | .t, .t => .t
  | _, _ => .u

def TV.or3 : TV → TV → TV
  | .t, _ => .t
  | _, .t => .t
  | .f, .f => .f
  | _, _ => .u

/-- SQLite storage-class rank: NULL is handled separately; booleans are
stored as integers; column affinity conversions are not modeled. -/
def Value.sqlRank : Value → Nat
  | .none => 0
  | .bool _ => 1
  | .int _ => 1
  | .str _ => 2

/-- SQLite ordering of two non-NULL values: numerics compare numerically,
texts compare as texts, and values of different storage classes compare by
class rank (any numeric sorts before any text). -/
def sqlOrd (v w : Value) : Ordering :=
  match v.asNum?, w.asNum? with
  | some m, some n => compare m n
  | _, _ =>
    match v, w with
    | .str s, .str t => compare s t
    | _, _ => compare v.sqlRank w.sqlRank

/-- Null-safe SQL equality (the semantics of `IS`). -/
def sqlIsEq (v w : Value) : Bool :=
  match v, w with
  | .none, .none => true
  | .none, _ => false
  | _, .none => false
  | _, _ => sqlOrd v w == .eq

/-- A SQL comparison: NULL operands make the ordinary comparisons unknown;
`IS` / `IS NOT` are null-safe. -/
def sqlCmp3 (op : CmpOp) (v w : Value) : TV :=
  match op with
  | .isOp => .ofBool (sqlIsEq v w)
  | .isNotOp => .ofBool (!sqlIsEq v w)
  | _ =>
    if v = .none ∨ w = .none then .u
    else
      match op with
      | .eq => .ofBool (sqlOrd v w == .eq)
      | .ne => .ofBool (sqlOrd v w != .eq)
      | .lt => .ofBool (sqlOrd v w == .lt)
      | .le => .ofBool (sqlOrd v w != .gt)
      | .gt => .ofBool (sqlOrd v w == .gt)
      | .ge => .ofBool (sqlOrd v w != .lt)
      | _ => .u

/-- SQL `IN` over an explicit value list: true on a match, false on an empty
list or when no element compares, unknown when the only failures involve
NULL. -/
def sqlIn3 (v : Value) (vs : List Value) : TV :=
  vs.foldl (fun acc w => acc.or3 (sqlCmp3 .eq v w)) .f

/-- Cast to TEXT for SQL LIKE and the string containment operators. -/
def Value.sqlText? : Value → Option String
  | .none => Option.none
  | .bool b => some (if b then "1" else "0")
  | .int n => some (toString n)
  | .str s => some s

/-- SQLite `LIKE` (case-insensitive for ASCII by default); NULL operands
yield NULL. -/
def sqlLike3 (v p : Value) : TV :=
  match v.sqlText?, p.sqlText? with
  | some s, some q =>
    .ofBool (likeChars (q.toList.map Char.toLower) (s.toList.map Char.toLower))
  | _, _ => .u

def sqlContains3 (v w : Value) : TV :=
  match v.sqlText?, w.sqlText? with
  | some s, some q => .ofBool (charsContain s.toList q.toList)
  | _, _ => .u

def sqlStarts3 (v w : Value) : TV :=
  match v.sqlText?, w.sqlText? with
  | some s, some q => .ofBool (charsLead q.toList s.toList)
  | _, _ => .u

def sqlEnds3 (v w : Value) : TV :=
  match v.sqlText?, w.sqlText? with
  | some s, some q => .ofBool (charsTrail q.toList s.toList)
  | _, _ => .u

/-- A row of the (single) table a filter is evaluated against. -/
abbrev Row := List (String × Value)

def Row.getCol (row : Row) (k : String) : Value :=
  ((row.find? (fun kv => kv.1 == k)).map (fun kv => kv.2)).getD .none

def resolveRow (o : Operand) (row : Row) : Value :=
  match o with
  | .col k => row.getCol k
  | .bind v => v

/-- Joined related rows, per relationship name and current row. -/
abbrev RelEnv := String → Row → List Row

mutual
/-- SQL evaluation of a filter expression against one row under three-valued
logic. -/
def sqlEval (env : RelEnv) (row : Row) (e : Expr) : TV :=
  match e with
  | .true_ => .t
  | .false_ => .f
  | .and_ cs => sqlAll env row cs
  | .or_ cs => sqlAnyOf env row cs
  | .not_ b => (sqlEval env row b).not3
  | .cmp op l r => sqlCmp3 op (resolveRow l row) (resolveRow r row)
  | .inList negated l rs =>
    let m := sqlIn3 (resolveRow l row) (rs.map (fun o => resolveRow o row))
    if negated then m.not3 else m
  | .like negated _ l r =>
    let m := sqlLike3 (resolveRow l row) (resolveRow r row)
    if negated then m.not3 else m
  | .between l bounds =>
    match bounds with
    | [b0, b1] =>
      (sqlCmp3 .le (resolveRow b0 row) (resolveRow l row)).and3
        (sqlCmp3 .le (resolveRow l row) (resolveRow b1 row))
    | _ => .f
  | .containsStr l r => sqlContains3 (resolveRow l row) (resolveRow r row)
  | .startsWithStr l r => sqlStarts3 (resolveRow l row) (resolveRow r row)
  | .endsWithStr l r => sqlEnds3 (resolveRow l row) (resolveRow r row)
  | .exists_ rel _ inner => .ofBool (sqlExistsRows env (env rel row) inner)
termination_by (sizeOf e, 0)

def sqlAll (env : RelEnv) (row : Row) (cs : List Expr) : TV :=
  match cs with
  | [] => .t
  | c :: rest => (sqlEval env row c).and3 (sqlAll env row rest)
termination_by (sizeOf cs, 0)

def sqlAnyOf (env : RelEnv) (row : Row) (cs : List Expr) : TV :=
  match cs with
  | [] => .f
  | c :: rest => (sqlEval env row c).or3 (sqlAnyOf env row rest)
termination_by (sizeOf cs, 0)

/-- SQL EXISTS over the joined rows: true when some joined row satisfies the
inner criterion (a criterion-free `.has()` / `.any()` just asks for a row). -/
def sqlExistsRows (env : RelEnv) (rows : List Row) (inner : Option Expr) : Bool :=
  match rows with
  | [] => false
  | r :: rest =>
    (match inner with
     | .none => true
     | some ie => sqlEval env r ie == .t) || sqlExistsRows env rest inner
termination_by (sizeOf inner, 1 + sizeOf rows)
end

/-! ## Policy registry (`policy/_registry.py`) -/

/-- Actors are duck-typed attribute bags in the source; policies read
whichever attributes they need. -/
abbrev Actor := List (String × Value)

def Actor.get (a : Actor) (k : String) : Value :=
  ((a.find? (fun kv => kv.1 == k)).map (fun kv => kv.2)).getD .none

/-- A Python policy callable: its declared number of positional parameters
(what `inspect.signature` would report) together with its behavior. -/
structure PolicyFn where
  positionalParams : Nat
  call : Actor → Expr

/-- Embeds `PolicyRegistration` from `policy/_base.py`. -/
structure PolicyRegistration where
  resource_type : String
  action : String
  fn : PolicyFn
  name : String
  description : String

/-- Embeds `PolicyRegistry`: a dict keyed by (model, action) holding ordered
registration lists.  Python dicts preserve insertion order and key
uniqueness; the association list mirrors that. -/
structure PolicyRegistry where
  policies : List ((String × String) × List PolicyRegistration)

def PolicyRegistry.empty : PolicyRegistry := ⟨[]⟩

/-- Embeds `register` (lines 29-74): build the registration, create the key's list
if absent, append.  The source performs no inspection of `fn`'s signature. -/
def PolicyRegistry.register (reg : PolicyRegistry)
    (resource_type action : String) (fn : PolicyFn)
    (name description : String) : PolicyRegistry :=
  let registration : PolicyRegistration :=
    ⟨resource_type, action, fn, name, description⟩
  let key := (resource_type, action)
  if reg.policies.any (fun kv => kv.1 == key) then
    ⟨reg.policies.map (fun kv =>
      if kv.1 == key then (kv.1, kv.2 ++ [registration]) else kv)⟩
  else
    ⟨reg.policies ++ [(key, [registration])]⟩

/-- Embeds `lookup` (lines 76-96): a copy of the key's list, empty when absent. -/
def PolicyRegistry.lookup (reg : PolicyRegistry) (resource_type action : String) :
    List PolicyRegistration :=
  ((reg.policies.find? (fun kv => kv.1 == (resource_type, action))).map
    (fun kv => kv.2)).getD []

/-- Embeds `has_policy` (lines 98-113): key membership in the dict. -/
def PolicyRegistry.has_policy (reg : PolicyRegistry)
    (resource_type action : String) : Bool :=
  reg.policies.any (fun kv => kv.1 == (resource_type, action))

/-- Embeds `clear` (lines 134-148). -/
def PolicyRegistry.clear (_reg : PolicyRegistry) : PolicyRegistry := ⟨[]⟩

/-- Embeds `registered_entities` (lines 115-132). -/
def PolicyRegistry.registered_entities (reg : PolicyRegistry) (action : String) :
    List String :=
  (reg.policies.filter (fun kv => kv.1.2 == action)).map (fun kv => kv.1.1)

/-! ## Predicate compiler (`compiler/_expression.py`) -/

/-- The SQLAlchemy `|` operator on boolean column elements. -/
def orExpr (a b : Expr) : Expr := .or_ [a, b]

/-- Embeds `evaluate_policies` (lines 16-73): deny-by-default `false()` when the
lookup is empty, otherwise one filter per registration folded left-to-right
with OR (`reduce(lambda a, b: a | b, filters)`).  The audit-logging branches
are observational only and do not affect the returned expression. -/
def evaluate_policies (registry : PolicyRegistry) (resource_type action : String)
    (actor : Actor) : Expr :=
  match registry.lookup resource_type action with
  | [] => .false_
  | p :: ps => (ps.map (fun q => q.fn.call actor)).foldl orExpr (p.fn.call actor)

/-! ## `authorize_query` (`compiler/_query.py`) -/

/-- A SELECT statement as the filter pipeline sees it: the entities of its
column descriptions (None for non-entity columns) and its WHERE conjuncts. -/
structure SelectStmt where
  entities : List (Option String)
  whereClauses : List Expr

def SelectStmt.whereAdd (s : SelectStmt) (e : Expr) : SelectStmt :=
  { s with whereClauses := s.whereClauses ++ [e] }

/-- Embeds `authorize_query` (lines 16-56): for each entity in the statement's
column descriptions, compile its filter and add it as a WHERE conjunct. -/
def authorize_query (stmt : SelectStmt) (actor : Actor) (action : String)
    (registry : PolicyRegistry) : SelectStmt :=
  stmt.entities.foldl (fun st ent =>
    match ent with
    | .none => st
    | some entity => st.whereAdd (evaluate_policies registry entity action actor))
    stmt

/-- A row is returned by a SELECT exactly when every WHERE conjunct is true
under SQL three-valued logic. -/
def rowReturned (env : RelEnv) (stmt : SelectStmt) (row : Row) : Bool :=
  stmt.whereClauses.all (fun e => sqlEval env row e == .t)

/-! ## Point check `can` (`_checks.py`) -/

/-- Embeds `can` (lines 17-73): compile the filter, create a fresh in-memory SQLite
database, insert the single resource row built from the instance's column
attribute values (lines 59-64 read `mapper.column_attrs` only; relationship
state is never consulted), and ask whether the row satisfies the filter.
Every other table of the metadata is created empty, so the relationship
environment joins no rows. -/
def can (actor : Actor) (action : String) (resource : Inst)
    (registry : PolicyRegistry) : Bool :=
  let resource_type := resource.className
  let filter_expr := evaluate_policies registry resource_type action actor
  sqlEval (fun _ _ => []) resource.attrs filter_expr == .t

/-! ## Session interceptor (`session/_interceptor.py`) -/

inductive AuthzError where
  | noPolicy (resource_type action : String)
  | writeDenied (action resource_type : String)
deriving DecidableEq, Repr

/-- The missing-policy check of `_apply_authz` (lines 82-85): with no policy
for the entity and action, `"raise"` signals `NoPolicyError`; otherwise
evaluation proceeds to the deny-by-default filter. -/
def missingPolicyCheck (cfg : AuthzConfig) (registry : PolicyRegistry)
    (entity action_val : String) : Except AuthzError Unit :=
  if registry.has_policy entity action_val = false then
    if cfg.on_missing_policy = .raise then .error (.noPolicy entity action_val)
    else .ok ()
  else .ok ()

structure ExecutionOptions where
  skip_authz : Bool := false
  authz_action : Option String := Option.none

/-- An intercepted UPDATE/DELETE statement: its kind, its target entity from
`entity_description`, and its WHERE conjuncts. -/
structure WriteStmt where
  isUpdate : Bool
  entity : Option String
  whereClauses : List Expr

def WriteStmt.whereAdd (s : WriteStmt) (e : Expr) : WriteStmt :=
  { s with whereClauses := s.whereClauses ++ [e] }

/-- Lines 148-151: the write action is the per-call `authz_action` override
when present, else `"update"` or `"delete"` by statement kind. -/
def writeActionFor (isUpdate : Bool) (opts : ExecutionOptions) : String :=
  if isUpdate then opts.authz_action.getD "update"
  else opts.authz_action.getD "delete"

inductive WriteOutcome where
  | unchanged
  | filtered (stmt : WriteStmt)

/-- Embeds `_apply_write_authz` (lines 122-174): skip flag bypasses (audit only);
a statement with no resolvable entity passes through; with no policy for
(entity, write-action), `"raise"` mode signals `WriteDeniedError` before
execution while `"filter"` mode falls through to the deny-by-default filter;
the compiled filter is appended to the statement's WHERE clause. -/
def applyWriteAuthz (cfg : AuthzConfig) (registry : PolicyRegistry)
    (actor : Actor) (opts : ExecutionOptions) (stmt : WriteStmt) :
    Except AuthzError WriteOutcome :=
  if opts.skip_authz then .ok .unchanged
  else
    let write_action := writeActionFor stmt.isUpdate opts
    match stmt.entity with
    | .none => .ok .unchanged
    | some entity =>
      if registry.has_policy entity write_action = false ∧
          cfg.on_write_denied = .raise then
        .error (.writeDenied write_action entity)
      else
        .ok (.filtered
          (stmt.whereAdd (evaluate_policies registry entity write_action actor)))

/-- A row is affected by an UPDATE/DELETE exactly when every WHERE conjunct
is true. -/
def rowAffected (env : RelEnv) (stmt : WriteStmt) (row : Row) : Bool :=
  stmt.whereClauses.all (fun e => sqlEval env row e == .t)

/-! ## Relationship-path compiler (`compiler/_relationship.py`) -/

inductive RelDirection where
  | manyToOne | oneToMany | manyToMany
deriving DecidableEq, Repr

/-- What `mapper.relationships[name]` yields: target entity and direction. -/
structure RelMeta where
  target : String
  direction : RelDirection
deriving DecidableEq, Repr

/-- The entity-metadata facility: relationship lookup per model. -/
abbrev Schema := String → String → Option RelMeta

inductive TraverseError where
  | missingRelationship (model attr : String)
deriving DecidableEq, Repr

/-- Embeds `traverse_relationship_path` (lines 14-58): an empty path returns the
leaf unchanged; otherwise resolve the first segment, recurse on the rest
against the target model, and wrap the result in an EXISTS — `.has()` for
MANYTOONE, `.any()` otherwise.  A name that is not a relationship on the
model signals a lookup error (the mapper raises on the indexing). -/
def traverse_relationship_path (schema : Schema) (model : String)
    (path : List String) (leaf_condition : Expr) : Except TraverseError Expr :=
  match path with
  | [] => .ok leaf_condition
  | attr_name :: rest =>
    match schema model attr_name with
    | .none => .error (.missingRelationship model attr_name)
    | some prop => do
      let inner ← traverse_relationship_path schema prop.target rest leaf_condition
      if prop.direction = .manyToOne then
        .ok (.exists_ attr_name false (some inner))
      else
        .ok (.exists_ attr_name true (some inner))

/-- The shape the spec promises for a compiled path: exactly one Existential
node per hop, wrapped outside-in around the leaf, each hop labeled with the
relationship name and whether it used plural (`.any()`) semantics. -/
inductive NestedExists : List (String × Bool) → Expr → Expr → Prop where
  | nil (leaf : Expr) : NestedExists [] leaf leaf
  | cons (r : String) (b : Bool) (hops : List (String × Bool)) (e leaf : Expr) :
      NestedExists hops e leaf →
      NestedExists ((r, b) :: hops) (.exists_ r b (some e)) leaf

/-- Spec-side resolution of a path's hop cardinalities: the plural flag per
hop, following targets through the schema. -/
def resolveDirections (schema : Schema) (model : String) :
    List String → Option (List Bool)
  | [] => some []
  | attr :: rest =>
    match schema model attr with
    | .none => Option.none
    | some prop =>
      (resolveDirections schema prop.target rest).map
        (fun bs => (if prop.direction = .manyToOne then false else true) :: bs)

/-! ## Registry operation sequences (for the reachable-state invariant) -/

inductive RegOp where
  | register (resource_type action : String) (fn : PolicyFn)
      (name description : String)
  | lookup (resource_type action : String)
  | clear

/-- Apply one operation to the registry state; `lookup` reads only. -/
def RegOp.apply (reg : PolicyRegistry) : RegOp → PolicyRegistry
  | .register rt a fn n d => reg.register rt a fn n d
  | .lookup _ _ => reg
  | .clear => reg.clear

def runOps (ops : List RegOp) : PolicyRegistry :=
  ops.foldl RegOp.apply PolicyRegistry.empty


/-! ## Supporting lemmas -/

/-- A key missing from the registry dict looks up to the empty list. -/
theorem PolicyRegistry.lookup_eq_nil_of_not_has (reg : PolicyRegistry)
    (rt a : String) (h : reg.has_policy rt a = false) :
    reg.lookup rt a = [] := by
  unfold PolicyRegistry.has_policy at h
  unfold PolicyRegistry.lookup
  have hall : ∀ kv ∈ reg.policies, ¬ (kv.1 == (rt, a)) = true := by
    intro kv hkv hbeq
    have : reg.policies.any (fun kv => kv.1 == (rt, a)) = true :=
      List.any_eq_true.mpr ⟨kv, hkv, hbeq⟩
    rw [h] at this
    exact Bool.false_ne_true this
  rw [List.find?_eq_none.mpr hall]
  rfl

/-- Updating the key's entry in the dict shows up in a subsequent find. -/
theorem lookup_map_update (key : String × String) (r : PolicyRegistration) :
    ∀ (l : List ((String × String) × List PolicyRegistration)),
      l.any (fun kv => kv.1 == key) = true →
      ((List.find? (fun kv => kv.1 == key)
          (l.map (fun kv =>
            if kv.1 == key then (kv.1, kv.2 ++ [r]) else kv))).map
        (fun kv => kv.2)).getD []
      = ((List.find? (fun kv => kv.1 == key) l).map
          (fun kv => kv.2)).getD [] ++ [r]
  | [], hmem => by simp at hmem
  | kv :: rest, hmem => by
    by_cases hk : (kv.1 == key) = true
    · simp only [List.map_cons, if_pos hk]
      rw [List.find?_cons, List.find?_cons]
      simp only [hk]
      rfl
    · have hrest : rest.any (fun kv => kv.1 == key) = true := by
        simp only [List.any_cons, hk, Bool.false_or] at hmem
        exact hmem
      simp only [List.map_cons, if_neg hk]
      rw [List.find?_cons, List.find?_cons]
      simp only [hk]
      exact lookup_map_update key r rest hrest

/-- Lemma: `register` appends exactly one registration to the key's list. -/
theorem PolicyRegistry.register_lookup_append (reg : PolicyRegistry)
    (rt a : String) (fn : PolicyFn) (n d : String) :
    (reg.register rt a fn n d).lookup rt a
      = reg.lookup rt a ++ [⟨rt, a, fn, n, d⟩] := by
  unfold PolicyRegistry.register PolicyRegistry.lookup
  by_cases hmem : reg.policies.any (fun kv => kv.1 == (rt, a)) = true
  · rw [if_pos hmem]
    exact lookup_map_update (rt, a) _ reg.policies hmem
  · rw [if_neg hmem]
    have hnone : reg.policies.find? (fun kv => kv.1 == (rt, a)) = Option.none := by
      apply List.find?_eq_none.mpr
      intro kv hkv hbeq
      exact hmem (List.any_eq_true.mpr ⟨kv, hkv, hbeq⟩)
    simp only []
    rw [List.find?_append, hnone, Option.none_or, List.find?_cons]
    simp [hnone]

/-- The combined filter of a registration list: deny-by-default for the
empty list, else the left-to-right OR fold. -/
def combineFilters : List Expr → Expr
  | [] => .false_
  | f :: fs => fs.foldl orExpr f

theorem evaluate_policies_eq_combine (reg : PolicyRegistry) (rt a : String)
    (actor : Actor) :
    evaluate_policies reg rt a actor
      = combineFilters ((reg.lookup rt a).map (fun p => p.fn.call actor)) := by
  unfold evaluate_policies combineFilters
  cases reg.lookup rt a with
  | nil => rfl
  | cons p ps => simp

theorem TV.or3_false_right (x : TV) : x.or3 .f = x := by
  cases x <;> rfl

theorem TV.or3_right_comm (a x y : TV) : (a.or3 x).or3 y = (a.or3 y).or3 x := by
  cases a <;> cases x <;> cases y <;> rfl

theorem sqlEval_orExpr (env : RelEnv) (row : Row) (a b : Expr) :
    sqlEval env row (orExpr a b) = (sqlEval env row a).or3 (sqlEval env row b) := by
  simp [orExpr, sqlEval, sqlAnyOf, TV.or3_false_right]

theorem sqlEval_foldl_orExpr (env : RelEnv) (row : Row) (l : List Expr)
    (init : Expr) :
    sqlEval env row (l.foldl orExpr init)
      = l.foldl (fun acc e => acc.or3 (sqlEval env row e)) (sqlEval env row init) := by
  induction l generalizing init with
  | nil => rfl
  | cons x xs ih => simp [List.foldl_cons, ih, sqlEval_orExpr]

/-- Folding OR over a list with the last two filters swapped yields the same
three-valued result. -/
theorem sqlEval_combine_swap_last (env : RelEnv) (row : Row)
    (l : List Expr) (x y : Expr) :
    sqlEval env row (combineFilters (l ++ [x, y]))
      = sqlEval env row (combineFilters (l ++ [y, x])) := by
  cases l with
  | nil =>
    show sqlEval env row (combineFilters [x, y])
      = sqlEval env row (combineFilters [y, x])
    simp only [combineFilters, List.foldl_cons, List.foldl_nil]
    rw [sqlEval_orExpr, sqlEval_orExpr]
    cases hx : sqlEval env row x <;> cases hy : sqlEval env row y <;> rfl
  | cons f fs =>
    simp only [List.cons_append, combineFilters]
    rw [sqlEval_foldl_orExpr, sqlEval_foldl_orExpr]
    rw [List.foldl_append, List.foldl_append]
    simp only [List.foldl_cons, List.foldl_nil]
    exact TV.or3_right_comm _ _ _

/-- C3: the claim says `register` rejects a policy function whose declared
signature accepts zero positional parameters unless validation is explicitly
disabled.  The source `register` (policy/_registry.py lines 29-74) performs
no signature inspection and has no `validate_signature` parameter — the
repository's own tests (tests/test_policy/test_registry.py,
`TestPolicySignatureValidation`) expect the rejection, so this is a defect
in the code: the zero-positional function below is appended successfully. -/
theorem register_skips_signature_validation :
    ((PolicyRegistry.empty.register "Post" "read"
        ⟨0, fun _ => Expr.true_⟩ "p" "").lookup "Post" "read").map
      (fun r => r.fn.positionalParams) = [0] := by
  simp [PolicyRegistry.empty, PolicyRegistry.register, PolicyRegistry.lookup,
    List.find?]

/-- C5 counterexample: a configuration constructed with strict mode and an
explicit `on_unprotected_get="ignore"` does not keep the explicit value (the
claim says an explicitly supplied "ignore" is preserved), and an explicit
`audit_bypasses=False` is likewise overridden to `True`. -/
theorem strict_mode_overrides_explicit_defaults_counterexample :
    (mkAuthzConfig
        { strict_mode := true, on_unprotected_get := .ignore }).on_unprotected_get
      = .warn
    ∧ (mkAuthzConfig
        { strict_mode := true, on_unprotected_get := .ignore }).on_unprotected_get
      ≠ .ignore
    ∧ (mkAuthzConfig
        { strict_mode := true, audit_bypasses := false }).audit_bypasses
      = true := by
  refine ⟨rfl, ?_, rfl⟩
  intro h
  simp [mkAuthzConfig, AuthzConfig.postInit] at h

/-- All twelve field values assembled with `strict_mode := true` and run
through construction (`__post_init__`). -/
def mkStrictConfig (mp : OnMissingPolicy) (da : String) (lpd : Bool)
    (ur : OnUnloadedRelationship) (ug tq : OnBypassAction) (sk : OnSkipAuthz)
    (ab iu idl : Bool) (wd : OnWriteDenied) : AuthzConfig :=
  mkAuthzConfig
    { on_missing_policy := mp, default_action := da,
      log_policy_decisions := lpd, on_unloaded_relationship := ur,
      strict_mode := true, on_unprotected_get := ug, on_text_query := tq,
      on_skip_authz := sk, audit_bypasses := ab, intercept_updates := iu,
      intercept_deletes := idl, on_write_denied := wd }

/-- C5 amended: with strict mode enabled, each of the three bypass behaviors
is set to its strict value exactly when the supplied value is the falsy
default ("ignore"), whether that default was explicit or omitted — an
explicitly supplied non-default value is preserved — and bypass auditing is
always enabled (an explicit `audit_bypasses=False` is indistinguishable from
the default and is overridden); the unrelated fields are untouched. -/
theorem strict_mode_forces_falsy_defaults
    (ug tq : OnBypassAction) (sk : OnSkipAuthz) (ab : Bool)
    (mp : OnMissingPolicy) (da : String) (lpd : Bool)
    (ur : OnUnloadedRelationship) (iu idl : Bool) (wd : OnWriteDenied) :
    (mkStrictConfig mp da lpd ur ug tq sk ab iu idl wd).on_unprotected_get
      = (if ug = .ignore then .warn else ug)
    ∧ (mkStrictConfig mp da lpd ur ug tq sk ab iu idl wd).on_text_query
      = (if tq = .ignore then .warn else tq)
    ∧ (mkStrictConfig mp da lpd ur ug tq sk ab iu idl wd).on_skip_authz
      = (if sk = .ignore then .log else sk)
    ∧ (mkStrictConfig mp da lpd ur ug tq sk ab iu idl wd).audit_bypasses = true
    ∧ (mkStrictConfig mp da lpd ur ug tq sk ab iu idl wd).on_missing_policy = mp
    ∧ (mkStrictConfig mp da lpd ur ug tq sk ab iu idl wd).on_unloaded_relationship
      = ur
    ∧ (mkStrictConfig mp da lpd ur ug tq sk ab iu idl wd).on_write_denied = wd := by
  refine ⟨?_, ?_, ?_, ?_, ?_, ?_, ?_⟩ <;>
    simp [mkStrictConfig, mkAuthzConfig, AuthzConfig.postInit]


/-- WHERE clauses accumulated by `authorize_query`: the original conjuncts
followed by one compiled filter per entity of the column descriptions. -/
theorem authorize_query_whereClauses (stmt : SelectStmt) (actor : Actor)
    (action : String) (reg : PolicyRegistry) :
    (authorize_query stmt actor action reg).whereClauses
      = stmt.whereClauses ++ (stmt.entities.filterMap id).map
          (fun e => evaluate_policies reg e action actor) := by
  unfold authorize_query
  have step : ∀ (l : List (Option String)) (st : SelectStmt),
      (l.foldl (fun st ent =>
        match ent with
        | Option.none => st
        | some entity =>
          st.whereAdd (evaluate_policies reg entity action actor)) st).whereClauses
      = st.whereClauses ++ (l.filterMap id).map
          (fun e => evaluate_policies reg e action actor) := by
    intro l
    induction l with
    | nil => intro st; simp
    | cons ent rest ih =>
      intro st
      cases ent with
      | none => simpa using ih st
      | some entity =>
        simp only [List.foldl_cons, List.filterMap_cons]
        rw [ih]
        simp [SelectStmt.whereAdd]
  exact step stmt.entities stmt

/-- A WHERE list containing the constant-false filter returns no row. -/
theorem rowReturned_false_of_mem (env : RelEnv) (stmt : SelectStmt) (row : Row)
    (hmem : Expr.false_ ∈ stmt.whereClauses) :
    rowReturned env stmt row = false := by
  unfold rowReturned
  rw [List.all_eq_false]
  refine ⟨Expr.false_, hmem, ?_⟩
  simp [sqlEval]

/-- C1: with zero registrations for an (entity, action) pair, the predicate
compiler returns the constant-false filter, `authorize_query` yields a query
returning zero rows, `can` returns false, and the interceptor's
missing-policy check is silent under the `"deny"` configuration and signals
`NoPolicyError` under `"raise"`. -/
theorem deny_by_default (reg : PolicyRegistry) (entity action : String)
    (h : reg.has_policy entity action = false) :
    (∀ actor, evaluate_policies reg entity action actor = .false_)
    ∧ (∀ actor (stmt : SelectStmt) (env : RelEnv) (row : Row),
        some entity ∈ stmt.entities →
        rowReturned env (authorize_query stmt actor action reg) row = false)
    ∧ (∀ actor (resource : Inst), resource.className = entity →
        can actor action resource reg = false)
    ∧ (∀ cfg : AuthzConfig, cfg.on_missing_policy = .deny →
        missingPolicyCheck cfg reg entity action = .ok ())
    ∧ (∀ cfg : AuthzConfig, cfg.on_missing_policy = .raise →
        missingPolicyCheck cfg reg entity action
          = .error (.noPolicy entity action)) := by
  have hlk : reg.lookup entity action = [] :=
    reg.lookup_eq_nil_of_not_has entity action h
  have hep : ∀ actor, evaluate_policies reg entity action actor = .false_ := by
    intro actor
    unfold evaluate_policies
    rw [hlk]
  refine ⟨hep, ?_, ?_, ?_, ?_⟩
  · intro actor stmt env row hmem
    apply rowReturned_false_of_mem
    rw [authorize_query_whereClauses]
    apply List.mem_append_right
    apply List.mem_map.mpr
    refine ⟨entity, ?_, hep actor⟩
    exact List.mem_filterMap.mpr ⟨some entity, hmem, rfl⟩
  · intro actor resource hcls
    simp only [can]
    rw [hcls, hep actor]
    simp [sqlEval]
  · intro cfg hc
    unfold missingPolicyCheck
    rw [h, hc]
    simp
  · intro cfg hc
    unfold missingPolicyCheck
    rw [h, hc]
    simp

/-- Concrete instantiation of `deny_by_default` at the empty registry. -/
theorem deny_by_default_witness :
    PolicyRegistry.empty.has_policy "Post" "read" = false
    ∧ evaluate_policies PolicyRegistry.empty "Post" "read" [] = .false_
    ∧ rowReturned (fun _ _ => [])
        (authorize_query ⟨[some "Post"], []⟩ [] "read" PolicyRegistry.empty)
        [("id", .int 1)] = false
    ∧ can [] "read" (Inst.mk "Post" [("id", .int 1)] [])
        PolicyRegistry.empty = false
    ∧ missingPolicyCheck {} PolicyRegistry.empty "Post" "read" = .ok ()
    ∧ missingPolicyCheck { on_missing_policy := .raise } PolicyRegistry.empty
        "Post" "read" = .error (.noPolicy "Post" "read") := by
  have h : PolicyRegistry.empty.has_policy "Post" "read" = false := rfl
  have t := deny_by_default PolicyRegistry.empty "Post" "read" h
  refine ⟨h, t.1 [], ?_, ?_, ?_, ?_⟩
  · exact t.2.1 [] ⟨[some "Post"], []⟩ (fun _ _ => []) [("id", .int 1)]
      (by simp)
  · exact t.2.2.1 [] (Inst.mk "Post" [("id", .int 1)] []) rfl
  · exact t.2.2.2.1 {} rfl
  · exact t.2.2.2.2 { on_missing_policy := .raise } rfl

/-- C4: registering two policies for the same (entity, action) pair in
either order compiles to combined filters with the same three-valued truth
value on every row — OR-composition is commutative in its logical result. -/
theorem or_composition_commutative (reg : PolicyRegistry)
    (entity action : String) (P1 P2 : PolicyFn) (n1 d1 n2 d2 : String)
    (actor : Actor) (env : RelEnv) (row : Row) :
    sqlEval env row (evaluate_policies
      ((reg.register entity action P1 n1 d1).register entity action P2 n2 d2)
      entity action actor)
    = sqlEval env row (evaluate_policies
      ((reg.register entity action P2 n2 d2).register entity action P1 n1 d1)
      entity action actor) := by
  rw [evaluate_policies_eq_combine, evaluate_policies_eq_combine,
    PolicyRegistry.register_lookup_append, PolicyRegistry.register_lookup_append,
    PolicyRegistry.register_lookup_append, PolicyRegistry.register_lookup_append]
  simp only [List.append_assoc, List.singleton_append, List.map_append,
    List.map_cons, List.map_nil]
  exact sqlEval_combine_swap_last env row _ _ _


/-- The dict invariant: every key present holds a non-empty list. -/
def RegInv (reg : PolicyRegistry) : Prop :=
  ∀ kv ∈ reg.policies, kv.2 ≠ []

theorem regInv_empty : RegInv PolicyRegistry.empty := by
  intro kv hkv
  simp [PolicyRegistry.empty] at hkv

theorem regInv_register (reg : PolicyRegistry) (rt a : String) (fn : PolicyFn)
    (n d : String) (h : RegInv reg) : RegInv (reg.register rt a fn n d) := by
  intro kv hkv
  unfold PolicyRegistry.register at hkv
  by_cases hmem : reg.policies.any (fun kv => kv.1 == (rt, a)) = true
  · rw [if_pos hmem] at hkv
    simp only [] at hkv
    rcases List.mem_map.mp hkv with ⟨kv0, hkv0, heq⟩
    by_cases hk : (kv0.1 == (rt, a)) = true
    · rw [if_pos hk] at heq
      subst heq
      simp
    · rw [if_neg hk] at heq
      subst heq
      exact h kv0 hkv0
  · rw [if_neg hmem] at hkv
    simp only [] at hkv
    rcases List.mem_append.mp hkv with h1 | h2
    · exact h kv h1
    · rcases List.mem_singleton.mp h2 with rfl
      simp

theorem regInv_clear (reg : PolicyRegistry) : RegInv reg.clear := by
  intro kv hkv
  simp [PolicyRegistry.clear] at hkv

theorem regInv_apply (reg : PolicyRegistry) (op : RegOp) (h : RegInv reg) :
    RegInv (RegOp.apply reg op) := by
  cases op with
  | register rt a fn n d => exact regInv_register reg rt a fn n d h
  | lookup rt a => exact h
  | clear => exact regInv_clear reg

theorem regInv_foldl (ops : List RegOp) :
    ∀ reg : PolicyRegistry, RegInv reg → RegInv (ops.foldl RegOp.apply reg) := by
  induction ops with
  | nil => intro reg h; exact h
  | cons op rest ih =>
    intro reg h
    exact ih (RegOp.apply reg op) (regInv_apply reg op h)

/-- On lists satisfying the non-empty-value invariant, key membership and a
non-empty find agree. -/
theorem anyKey_iff_find_ne_nil (key : String × String) :
    ∀ (l : List ((String × String) × List PolicyRegistration)),
      (∀ kv ∈ l, kv.2 ≠ []) →
      (l.any (fun kv => kv.1 == key) = true ↔
        ((l.find? (fun kv => kv.1 == key)).map (fun kv => kv.2)).getD [] ≠ [])
  | [], _ => by simp
  | kv :: rest, h => by
    rw [List.any_cons, List.find?_cons]
    by_cases hk : (kv.1 == key) = true
    · simp only [hk, Bool.true_or]
      simpa using h kv (List.mem_cons_self kv rest)
    · simp only [hk, Bool.false_or]
      exact anyKey_iff_find_ne_nil key rest
        (fun kv0 hkv0 => h kv0 (List.mem_cons_of_mem kv hkv0))

/-- C10: in every registry state reachable from the empty registry by
register/lookup/clear sequences, each key present in the dict holds a
non-empty registration list, and consequently `has_policy` answers true
exactly when `lookup` returns a non-empty list. -/
theorem registry_reachable_invariant (ops : List RegOp)
    (resource_type action : String) :
    (∀ kv ∈ (runOps ops).policies, kv.2 ≠ [])
    ∧ ((runOps ops).has_policy resource_type action = true ↔
        (runOps ops).lookup resource_type action ≠ []) := by
  have hinv : RegInv (runOps ops) := regInv_foldl ops PolicyRegistry.empty regInv_empty
  refine ⟨hinv, ?_⟩
  unfold PolicyRegistry.has_policy PolicyRegistry.lookup
  exact anyKey_iff_find_ne_nil (resource_type, action) (runOps ops).policies hinv


theorem evalExistsAny_nil (cfg : AuthzConfig) (inner : Option Expr) :
    evalExistsAny cfg inner [] = .ok false := by
  simp [evalExistsAny]

theorem evalExistsAny_cons_true (cfg : AuthzConfig) (inner : Option Expr)
    (o : Inst) (rest : List Inst) (h : evalInner cfg inner o = .ok true) :
    evalExistsAny cfg inner (o :: rest) = .ok true := by
  simp only [evalExistsAny, h]
  rfl

theorem evalExistsAny_cons_false (cfg : AuthzConfig) (inner : Option Expr)
    (o : Inst) (rest : List Inst) (h : evalInner cfg inner o = .ok false) :
    evalExistsAny cfg inner (o :: rest) = evalExistsAny cfg inner rest := by
  simp only [evalExistsAny, h]
  rfl

/-- Under error-free inner evaluation, the `.any()` loop returns true exactly
when some related object satisfies the inner filter, and never errs. -/
theorem evalExistsAny_spec (cfg : AuthzConfig) (inner : Option Expr) :
    ∀ objs : List Inst,
      (∀ o ∈ objs, ∃ bb, evalInner cfg inner o = .ok bb) →
      ((evalExistsAny cfg inner objs = .ok true) ↔
        ∃ o ∈ objs, evalInner cfg inner o = .ok true)
      ∧ ∃ rb, evalExistsAny cfg inner objs = .ok rb
  | [], _ => by
    refine ⟨?_, false, evalExistsAny_nil cfg inner⟩
    rw [evalExistsAny_nil]
    simp
  | o :: rest, h => by
    rcases h o (List.mem_cons_self o rest) with ⟨bb, hbb⟩
    have hrest := evalExistsAny_spec cfg inner rest
      (fun o' ho' => h o' (List.mem_cons_of_mem o ho'))
    cases bb with
    | true =>
      rw [evalExistsAny_cons_true cfg inner o rest hbb]
      refine ⟨?_, true, rfl⟩
      simp only [true_iff]
      exact ⟨o, List.mem_cons_self o rest, hbb⟩
    | false =>
      rw [evalExistsAny_cons_false cfg inner o rest hbb]
      refine ⟨?_, hrest.2⟩
      rw [hrest.1]
      constructor
      · rintro ⟨o', ho', hsat⟩
        exact ⟨o', List.mem_cons_of_mem o ho', hsat⟩
      · rintro ⟨o', ho', hsat⟩
        rcases List.mem_cons.mp ho' with rfl | hmem
        · rw [hbb] at hsat
          exact absurd hsat (by simp)
        · exact ⟨o', hmem, hsat⟩

/-- C7: EXISTS evaluation against an instance — unloaded relationships follow
the configured policy (deny/raise/warn, with the error naming entity and
relationship), a singular None related value is a non-match, an empty loaded
collection is a non-match, and a loaded collection matches exactly when some
related object satisfies the inner filter, short-circuiting at the first
match. -/
theorem exists_evaluation_cases :
    (∀ (cfg : AuthzConfig) (nm : String) (attrs : List (String × Value))
        (rel : String) (b : Bool) (inner : Option Expr),
      cfg.on_unloaded_relationship = .deny →
      evalE cfg (.exists_ rel b inner) (.mk nm attrs [(rel, .unloaded)])
        = .ok false)
    ∧ (∀ (cfg : AuthzConfig) (nm : String) (attrs : List (String × Value))
        (rel : String) (b : Bool) (inner : Option Expr),
      cfg.on_unloaded_relationship = .raise →
      evalE cfg (.exists_ rel b inner) (.mk nm attrs [(rel, .unloaded)])
        = .error (.unloadedRelationship nm rel))
    ∧ (∀ (cfg : AuthzConfig) (nm : String) (attrs : List (String × Value))
        (rel : String) (b : Bool) (inner : Option Expr),
      cfg.on_unloaded_relationship = .warn →
      evalE cfg (.exists_ rel b inner) (.mk nm attrs [(rel, .unloaded)])
        = .ok false)
    ∧ (∀ (cfg : AuthzConfig) (nm : String) (attrs : List (String × Value))
        (rel : String) (b : Bool) (inner : Option Expr),
      evalE cfg (.exists_ rel b inner) (.mk nm attrs [(rel, .one Option.none)])
        = .ok false)
    ∧ (∀ (cfg : AuthzConfig) (nm : String) (attrs : List (String × Value))
        (rel : String) (b : Bool) (inner : Option Expr),
      evalE cfg (.exists_ rel b inner) (.mk nm attrs [(rel, .many [])])
        = .ok false)
    ∧ (∀ (cfg : AuthzConfig) (nm : String) (attrs : List (String × Value))
        (rel : String) (b : Bool) (inner : Option Expr) (objs : List Inst),
      (∀ o ∈ objs, ∃ bb, evalInner cfg inner o = .ok bb) →
      ((evalE cfg (.exists_ rel b inner) (.mk nm attrs [(rel, .many objs)])
          = .ok true)
        ↔ ∃ o ∈ objs, evalInner cfg inner o = .ok true)
      ∧ ∃ rb, evalE cfg (.exists_ rel b inner)
          (.mk nm attrs [(rel, .many objs)]) = .ok rb)
    ∧ (∀ (cfg : AuthzConfig) (nm : String) (attrs : List (String × Value))
        (rel : String) (b : Bool) (inner : Option Expr) (o : Inst)
        (objs : List Inst),
      evalInner cfg inner o = .ok true →
      evalE cfg (.exists_ rel b inner)
        (.mk nm attrs [(rel, .many (o :: objs))]) = .ok true) := by
  have hfind : ∀ (nm : String) (attrs : List (String × Value)) (rel : String)
      (st : RelState),
      (Inst.mk nm attrs [(rel, st)]).findRel rel = some st := by
    intro nm attrs rel st
    simp [Inst.findRel, Inst.rels, List.find?]
  refine ⟨?_, ?_, ?_, ?_, ?_, ?_, ?_⟩
  · intro cfg nm attrs rel b inner hmode
    simp [evalE, hfind, handleUnloadedRelationship, hmode]
  · intro cfg nm attrs rel b inner hmode
    simp [evalE, hfind, handleUnloadedRelationship, hmode, Inst.className]
  · intro cfg nm attrs rel b inner hmode
    simp [evalE, hfind, handleUnloadedRelationship, hmode]
  · intro cfg nm attrs rel b inner
    simp [evalE, hfind]
  · intro cfg nm attrs rel b inner
    simp [evalE, hfind, evalExistsAny_nil]
  · intro cfg nm attrs rel b inner objs hok
    have hspec := evalExistsAny_spec cfg inner objs hok
    constructor
    · rw [← hspec.1]
      constructor
      · intro h
        rw [← h]
        simp [evalE, hfind]
      · intro h
        rw [← h]
        simp [evalE, hfind]
    · rcases hspec.2 with ⟨rb, hrb⟩
      refine ⟨rb, ?_⟩
      rw [← hrb]
      simp [evalE, hfind]
  · intro cfg nm attrs rel b inner o objs hsat
    have := evalExistsAny_cons_true cfg inner o objs hsat
    rw [← this]
    simp [evalE, hfind]

/-- Concrete instantiation of `exists_evaluation_cases`: the raise mode
errors with the entity and relationship names, and a loaded collection
short-circuits at a satisfying first element. -/
theorem exists_evaluation_cases_witness :
    ({ on_unloaded_relationship := .raise } : AuthzConfig).on_unloaded_relationship
      = .raise
    ∧ evalE { on_unloaded_relationship := .raise }
        (.exists_ "author" false Option.none)
        (.mk "Post" [] [("author", .unloaded)])
      = .error (.unloadedRelationship "Post" "author")
    ∧ evalInner {} Option.none (.mk "User" [] []) = .ok true
    ∧ evalE {} (.exists_ "tags" true Option.none)
        (.mk "Post" [] [("tags", .many [.mk "User" [] []])]) = .ok true := by
  refine ⟨rfl, ?_, by simp [evalInner], ?_⟩
  · exact exists_evaluation_cases.2.1 { on_unloaded_relationship := .raise }
      "Post" [] "author" false Option.none rfl
  · exact exists_evaluation_cases.2.2.2.2.2.2 {} "Post" [] "tags" true
      Option.none (.mk "User" [] []) [] (by simp [evalInner])


theorem pyEq_mismatch (v w : Value) (h : v.tyClass ≠ w.tyClass) :
    pyEq v w = false := by
  cases v <;> cases w <;> first | rfl | exact absurd rfl h

theorem pyIs_mismatch (v w : Value) (h : v.tyClass ≠ w.tyClass) :
    pyIs v w = false := by
  cases v <;> cases w <;> first | rfl | exact absurd rfl h

theorem pyLt_mismatch (v w : Value) (h : v.tyClass ≠ w.tyClass) :
    pyLt v w = .error () := by
  cases v <;> cases w <;> first | rfl | exact absurd rfl h

theorem pyLe_mismatch (v w : Value) (h : v.tyClass ≠ w.tyClass) :
    pyLe v w = .error () := by
  cases v <;> cases w <;> first | rfl | exact absurd rfl h

theorem sqlLikeMatch_mismatch (v w : Value) (cs : Bool)
    (h : v.tyClass ≠ w.tyClass) : sqlLikeMatch v w cs = false := by
  cases v <;> cases w <;> first | rfl | exact absurd rfl h

theorem applyContains_mismatch (v w : Value) (h : v.tyClass ≠ w.tyClass) :
    applyContains v w = false := by
  cases v <;> cases w <;> first | rfl | exact absurd rfl h

theorem applyStarts_mismatch (v w : Value) (h : v.tyClass ≠ w.tyClass) :
    applyStarts v w = false := by
  cases v <;> cases w <;> first | rfl | exact absurd rfl h

theorem applyEnds_mismatch (v w : Value) (h : v.tyClass ≠ w.tyClass) :
    applyEnds v w = false := by
  cases v <;> cases w <;> first | rfl | exact absurd rfl h

/-- C6 counterexample: the claim says every comparison node, the BETWEEN node
included, returns False on mismatched operand types rather than raising.  The
BETWEEN branch of `_eval_binary` has no `TypeError` handler, so comparing a
string against an integer range propagates a type error. -/
theorem between_type_mismatch_raises_counterexample :
    evalE {} (.between (.bind (.str "abc")) [.bind (.int 1), .bind (.int 5)])
      (.mk "Post" [] []) = .error .typeError := by
  simp [evalE, resolveValue, applyBetween, pyLe, Value.asNum?]

/-- C6 amended: on operand values of mismatched type classes, the ordinary
comparisons =, <, ≤, >, ≥, IS, string containment, LIKE, and IN yield False
without raising, their negations (≠, IS NOT, NOT LIKE, NOT IN) yield the
corresponding True without raising, and BETWEEN is the exception: with both
bounds present and the first bound incomparable with the operand, a type
error propagates. -/
theorem comparison_type_mismatch_semantics (cfg : AuthzConfig) (i : Inst)
    (v w : Value) (h : v.tyClass ≠ w.tyClass) :
    (evalE cfg (.cmp .eq (.bind v) (.bind w)) i = .ok false)
    ∧ (evalE cfg (.cmp .ne (.bind v) (.bind w)) i = .ok true)
    ∧ (evalE cfg (.cmp .isOp (.bind v) (.bind w)) i = .ok false)
    ∧ (evalE cfg (.cmp .isNotOp (.bind v) (.bind w)) i = .ok true)
    ∧ (∀ op, (op = CmpOp.lt ∨ op = CmpOp.le ∨ op = CmpOp.gt ∨ op = CmpOp.ge) →
        evalE cfg (.cmp op (.bind v) (.bind w)) i = .ok false)
    ∧ (∀ negated ci : Bool,
        evalE cfg (.like negated ci (.bind v) (.bind w)) i = .ok negated)
    ∧ (evalE cfg (.inList false (.bind v) [.bind w]) i = .ok false)
    ∧ (evalE cfg (.inList true (.bind v) [.bind w]) i = .ok true)
    ∧ (evalE cfg (.containsStr (.bind v) (.bind w)) i = .ok false)
    ∧ (evalE cfg (.startsWithStr (.bind v) (.bind w)) i = .ok false)
    ∧ (evalE cfg (.endsWithStr (.bind v) (.bind w)) i = .ok false)
    ∧ (∀ b1 : Operand, evalE cfg (.between (.bind v) [.bind w, b1]) i
        = .error .typeError) := by
  have hsymm : w.tyClass ≠ v.tyClass := fun hh => h hh.symm
  refine ⟨?_, ?_, ?_, ?_, ?_, ?_, ?_, ?_, ?_, ?_, ?_, ?_⟩
  · simp [evalE, resolveValue, applyCmp, pyEq_mismatch v w h]
  · simp [evalE, resolveValue, applyCmp, pyEq_mismatch v w h]
  · simp [evalE, resolveValue, applyCmp, pyIs_mismatch v w h]
  · simp [evalE, resolveValue, applyCmp, pyIs_mismatch v w h]
  · rintro op (rfl | rfl | rfl | rfl) <;>
      simp [evalE, resolveValue, applyCmp, pyLt_mismatch v w h,
        pyLe_mismatch v w h, pyLt_mismatch w v hsymm, pyLe_mismatch w v hsymm]
  · intro negated ci
    cases negated <;>
      simp [evalE, resolveValue, sqlLikeMatch_mismatch v w _ h]
  · simp [evalE, resolveValue, pyMem, pyEq_mismatch v w h]
  · simp [evalE, resolveValue, pyMem, pyEq_mismatch v w h]
  · simp [evalE, resolveValue, applyContains_mismatch v w h]
  · simp [evalE, resolveValue, applyStarts_mismatch v w h]
  · simp [evalE, resolveValue, applyEnds_mismatch v w h]
  · intro b1
    simp [evalE, resolveValue, applyBetween, pyLe_mismatch w v hsymm]

/-- Concrete instantiation of `comparison_type_mismatch_semantics` at an
integer/string pair. -/
theorem comparison_type_mismatch_semantics_witness :
    (Value.int 1).tyClass ≠ (Value.str "a").tyClass
    ∧ evalE {} (.cmp .eq (.bind (.int 1)) (.bind (.str "a")))
        (.mk "Post" [] []) = .ok false
    ∧ evalE {} (.cmp .ne (.bind (.int 1)) (.bind (.str "a")))
        (.mk "Post" [] []) = .ok true
    ∧ evalE {} (.cmp .lt (.bind (.int 1)) (.bind (.str "a")))
        (.mk "Post" [] []) = .ok false
    ∧ evalE {} (.between (.bind (.int 1)) [.bind (.str "a"), .bind (.int 5)])
        (.mk "Post" [] []) = .error .typeError := by
  have h : (Value.int 1).tyClass ≠ (Value.str "a").tyClass := by decide
  have t := comparison_type_mismatch_semantics {} (.mk "Post" [] [])
    (.int 1) (.str "a") h
  exact ⟨h, t.1, t.2.1, t.2.2.2.2.1 CmpOp.lt (Or.inl rfl),
    t.2.2.2.2.2.2.2.2.2.2.2 (.bind (.int 5))⟩


/-! ## Point-check scenario: relationship policy over a loaded path -/

/-- The relationship policy of spec scenario (3):
`Post.author.has(User.organization_id == actor.org_id)`. -/
def orgPolicyFn : PolicyFn :=
  ⟨1, fun actor => .exists_ "author" false
      (some (.cmp .eq (.col "organization_id") (.bind (actor.get "org_id"))))⟩

def relRegistry : PolicyRegistry :=
  PolicyRegistry.empty.register "Post" "read" orgPolicyFn "author_org" ""

def matchingActor : Actor := [("org_id", .int 1)]

def otherOrgActor : Actor := [("org_id", .int 2)]

def loadedAuthor : Inst :=
  .mk "User" [("id", .int 1), ("organization_id", .int 1)] []

def loadedPost : Inst :=
  .mk "Post" [("id", .int 10), ("author_id", .int 1)]
    [("author", .one (some loadedAuthor))]

def unloadedPost : Inst :=
  .mk "Post" [("id", .int 10), ("author_id", .int 1)]
    [("author", .unloaded)]

/-- C2: the claim says `can` evaluates the compiled filter against the
instance's already-loaded object graph without issuing any storage
operation.  The source `can` (_checks.py lines 46-73) instead executes the
filter on a temporary SQLite database holding only the resource's column
values: related tables are empty, so the relationship policy's EXISTS fails
and the actor in the matching organization is denied, and the result is
insensitive to relationship load state.  The in-memory evaluator
`eval_expression` (compiler/_eval.py) — whose module docstring declares it
the evaluator for `can`/`authorize` but which `can` never calls — implements
exactly the claimed semantics: allowed for the matching organization, denied
for the non-matching one, and an error identifying entity and relationship
when the path is unloaded under the raise configuration. -/
theorem can_ignores_loaded_relationship_state :
    can matchingActor "read" loadedPost relRegistry = false
    ∧ eval_expression {}
        (evaluate_policies relRegistry "Post" "read" matchingActor)
        loadedPost = .ok true
    ∧ eval_expression {}
        (evaluate_policies relRegistry "Post" "read" otherOrgActor)
        loadedPost = .ok false
    ∧ eval_expression { on_unloaded_relationship := .raise }
        (evaluate_policies relRegistry "Post" "read" matchingActor)
        unloadedPost = .error (.unloadedRelationship "Post" "author")
    ∧ can matchingActor "read" unloadedPost relRegistry
        = can matchingActor "read" loadedPost relRegistry := by
  have hpol : ∀ actor : Actor,
      evaluate_policies relRegistry "Post" "read" actor
        = .exists_ "author" false
            (some (.cmp .eq (.col "organization_id")
              (.bind (actor.get "org_id")))) := by
    intro actor
    rfl
  refine ⟨?_, ?_, ?_, ?_, ?_⟩
  · simp [can, Inst.className, Inst.attrs, loadedPost, hpol, sqlEval,
      sqlExistsRows, TV.ofBool]
  · rw [hpol]
    simp [eval_expression, evalE, evalInner, Inst.findRel, Inst.rels,
      loadedPost, loadedAuthor, matchingActor, Actor.get, List.find?,
      resolveValue, applyCmp, pyEq, Value.asNum?, Inst.getAttr, Inst.attrs]
  · rw [hpol]
    simp [eval_expression, evalE, evalInner, Inst.findRel, Inst.rels,
      loadedPost, loadedAuthor, otherOrgActor, Actor.get, List.find?,
      resolveValue, applyCmp, pyEq, Value.asNum?, Inst.getAttr, Inst.attrs]
  · rw [hpol]
    simp [eval_expression, evalE, Inst.findRel, Inst.rels, Inst.className,
      unloadedPost, List.find?, handleUnloadedRelationship]
  · simp [can, Inst.className, Inst.attrs, unloadedPost, loadedPost, hpol,
      sqlEval, sqlExistsRows, TV.ofBool]

/-- A WHERE list containing the constant-false filter affects no row. -/
theorem rowAffected_false_of_mem (env : RelEnv) (stmt : WriteStmt) (row : Row)
    (hmem : Expr.false_ ∈ stmt.whereClauses) :
    rowAffected env stmt row = false := by
  unfold rowAffected
  rw [List.all_eq_false]
  refine ⟨Expr.false_, hmem, ?_⟩
  simp [sqlEval]

/-- C8: intercepted UPDATE/DELETE statements — the write action defaults to
"update"/"delete" per statement kind and is overridable per call; with no
policy for (entity, write-action), raise mode signals a write-denied error
before execution and filter mode appends the deny-by-default false filter so
the statement affects zero rows; with a policy registered the compiled
filter is appended, and an appended filter restricts the affected rows
conjunctively. -/
theorem write_authorization_cases (cfg : AuthzConfig) (reg : PolicyRegistry)
    (actor : Actor) (opts : ExecutionOptions) (stmt : WriteStmt)
    (entity : String) (hskip : opts.skip_authz = false)
    (hent : stmt.entity = some entity) :
    (writeActionFor true ⟨false, Option.none⟩ = "update"
      ∧ writeActionFor false ⟨false, Option.none⟩ = "delete"
      ∧ ∀ (u : Bool) (a : String), writeActionFor u ⟨false, some a⟩ = a)
    ∧ (reg.has_policy entity (writeActionFor stmt.isUpdate opts) = false →
        cfg.on_write_denied = .raise →
        applyWriteAuthz cfg reg actor opts stmt
          = .error (.writeDenied (writeActionFor stmt.isUpdate opts) entity))
    ∧ (reg.has_policy entity (writeActionFor stmt.isUpdate opts) = false →
        cfg.on_write_denied = .filter →
        applyWriteAuthz cfg reg actor opts stmt
          = .ok (.filtered (stmt.whereAdd .false_))
        ∧ (∀ (env : RelEnv) (row : Row),
            rowAffected env (stmt.whereAdd .false_) row = false))
    ∧ (reg.has_policy entity (writeActionFor stmt.isUpdate opts) = true →
        applyWriteAuthz cfg reg actor opts stmt
          = .ok (.filtered (stmt.whereAdd
              (evaluate_policies reg entity
                (writeActionFor stmt.isUpdate opts) actor))))
    ∧ (∀ (f : Expr) (env : RelEnv) (row : Row),
        rowAffected env (stmt.whereAdd f) row
          = (rowAffected env stmt row && (sqlEval env row f == TV.t))) := by
  refine ⟨⟨rfl, rfl, ?_⟩, ?_, ?_, ?_, ?_⟩
  · intro u a
    cases u <;> rfl
  · intro hnp hr
    unfold applyWriteAuthz
    rw [hskip]
    simp only [Bool.false_eq_true, if_false, hent]
    rw [if_pos ⟨hnp, hr⟩]
  · intro hnp hf
    have hev : evaluate_policies reg entity (writeActionFor stmt.isUpdate opts)
        actor = .false_ := by
      unfold evaluate_policies
      rw [reg.lookup_eq_nil_of_not_has entity _ hnp]
    constructor
    · unfold applyWriteAuthz
      rw [hskip]
      simp only [Bool.false_eq_true, if_false, hent]
      rw [if_neg (fun hc => by rw [hf] at hc; exact absurd hc.2 (by decide))]
      rw [hev]
    · intro env row
      apply rowAffected_false_of_mem
      simp [WriteStmt.whereAdd]
  · intro hp
    unfold applyWriteAuthz
    rw [hskip]
    simp only [Bool.false_eq_true, if_false, hent]
    rw [if_neg (fun hc => by rw [hp] at hc; exact absurd hc.1 (by decide))]
  · intro f env row
    unfold rowAffected WriteStmt.whereAdd
    simp [List.all_append]

/-- Concrete instantiation of `write_authorization_cases` at an intercepted
DELETE with an empty registry: raise mode errors, filter mode appends the
false filter. -/
theorem write_authorization_cases_witness :
    (⟨false, Option.none⟩ : ExecutionOptions).skip_authz = false
    ∧ (⟨false, some "Post", []⟩ : WriteStmt).entity = some "Post"
    ∧ applyWriteAuthz {} PolicyRegistry.empty [] ⟨false, Option.none⟩
        ⟨false, some "Post", []⟩ = .error (.writeDenied "delete" "Post")
    ∧ applyWriteAuthz { on_write_denied := .filter } PolicyRegistry.empty []
        ⟨false, Option.none⟩ ⟨false, some "Post", []⟩
      = .ok (.filtered ⟨false, some "Post", [.false_]⟩)
    ∧ rowAffected (fun _ _ => []) ⟨false, some "Post", [.false_]⟩
        [("id", .int 1)] = false := by
  have t1 := write_authorization_cases {} PolicyRegistry.empty []
    ⟨false, Option.none⟩ ⟨false, some "Post", []⟩ "Post" rfl rfl
  have t2 := write_authorization_cases { on_write_denied := .filter }
    PolicyRegistry.empty [] ⟨false, Option.none⟩ ⟨false, some "Post", []⟩
    "Post" rfl rfl
  refine ⟨rfl, rfl, t1.2.1 rfl rfl, ?_, ?_⟩
  · exact (t2.2.2.1 rfl rfl).1
  · exact (t2.2.2.1 rfl rfl).2 (fun _ _ => []) [("id", .int 1)]

/-- C9: relationship-path compilation — the empty path returns the leaf
unchanged, and a successfully compiled N-hop path is exactly N nested
Existential nodes wrapped around the leaf, each hop flagged singular
(`.has()`) for MANYTOONE relationships and plural (`.any()`) otherwise, in
agreement with the schema's per-hop cardinalities. -/
theorem traverse_path_shape (schema : Schema) (model : String)
    (path : List String) (leaf : Expr) :
    (traverse_relationship_path schema model [] leaf = .ok leaf)
    ∧ (∀ e, traverse_relationship_path schema model path leaf = .ok e →
        ∃ flags, resolveDirections schema model path = some flags
          ∧ flags.length = path.length
          ∧ NestedExists (path.zip flags) e leaf) := by
  refine ⟨rfl, ?_⟩
  induction path generalizing model with
  | nil =>
    intro e he
    have : leaf = e := by
      simpa [traverse_relationship_path] using he
    subst this
    exact ⟨[], rfl, rfl, NestedExists.nil leaf⟩
  | cons attr rest ih =>
    intro e he
    unfold traverse_relationship_path at he
    cases hsch : schema model attr with
    | none =>
      rw [hsch] at he
      exact absurd he (by simp)
    | some prop =>
      rw [hsch] at he
      have he2 : (do
          let inner ← traverse_relationship_path schema prop.target rest leaf
          if prop.direction = RelDirection.manyToOne then
            Except.ok (Expr.exists_ attr false (some inner))
          else Except.ok (Expr.exists_ attr true (some inner)))
          = Except.ok e := he
      clear he
      cases htr : traverse_relationship_path schema prop.target rest leaf with
      | error err =>
        rw [htr] at he2
        exact absurd he2 (by simp [Bind.bind, Except.bind])
      | ok inner =>
        rw [htr] at he2
        rcases ih prop.target inner htr with ⟨flags, hres, hlen, hnest⟩
        have he3 : (if prop.direction = RelDirection.manyToOne then
            Except.ok (Expr.exists_ attr false (some inner))
          else Except.ok (Expr.exists_ attr true (some inner)))
            = Except.ok e := he2
        clear he2
        by_cases hdir : prop.direction = .manyToOne
        · rw [if_pos hdir] at he3
          have he' : Expr.exists_ attr false (some inner) = e := by
            simpa using he3
          subst he'
          refine ⟨false :: flags, ?_, by simp [hlen], ?_⟩
          · unfold resolveDirections
            simp [hsch, hres, hdir]
          · exact NestedExists.cons attr false (rest.zip flags) inner leaf hnest
        · rw [if_neg hdir] at he3
          have he' : Expr.exists_ attr true (some inner) = e := by
            simpa using he3
          subst he'
          refine ⟨true :: flags, ?_, by simp [hlen], ?_⟩
          · unfold resolveDirections
            simp [hsch, hres, hdir]
          · exact NestedExists.cons attr true (rest.zip flags) inner leaf hnest

/-- A concrete two-hop schema: Post → author (many-to-one User) →
organization (many-to-one Organization). -/
def demoSchema : Schema := fun model attr =>
  if model == "Post" && attr == "author" then some ⟨"User", .manyToOne⟩
  else if model == "User" && attr == "organization" then
    some ⟨"Organization", .manyToOne⟩
  else Option.none

/-- Concrete instantiation of `traverse_path_shape` on the two-hop demo
schema. -/
theorem traverse_path_shape_witness :
    traverse_relationship_path demoSchema "Post" ["author", "organization"]
        .true_
      = .ok (.exists_ "author" false
          (some (.exists_ "organization" false (some .true_))))
    ∧ ∃ flags,
        resolveDirections demoSchema "Post" ["author", "organization"]
          = some flags
        ∧ flags.length = (["author", "organization"] : List String).length
        ∧ NestedExists ((["author", "organization"] : List String).zip flags)
            (.exists_ "author" false
              (some (.exists_ "organization" false (some .true_))))
            .true_ := by
  have htr : traverse_relationship_path demoSchema "Post"
      ["author", "organization"] .true_
      = .ok (.exists_ "author" false
          (some (.exists_ "organization" false (some .true_)))) := rfl
  exact ⟨htr, (traverse_path_shape demoSchema "Post" ["author", "organization"]
    .true_).2 _ htr⟩

end SqlaAuthz
